import Mathlib

/-!
Verification development for the `llamaapi` repository: a shallow embedding of
the package entry point (`src/llamaapi/__init__.py`), and of the client/server
middleware, retry, cache, router and auth-gate behaviors the specification
describes.  The implementation modules `llamaapi.auth`, `llamaapi.cache`,
`llamaapi.client`, `llamaapi.exceptions`, `llamaapi.middleware`,
`llamaapi.openapi` and `llamaapi.server` are absent from the source tree, so
those parts are modelled from the specification text; every such definition is
marked `Modelled from the spec:` in its doc comment.
-/

namespace LlamaApi

/-! ### Python assignment / import model for the package entry point -/

/-- A Python expression as far as assignment targets are concerned: either a
bare name or a string literal.  Embeds the shapes occurring on lines 5-8 of
`src/llamaapi/__init__.py`. -/
inductive PyExpr where
  | name (s : String)
  | strLit (s : String)
  deriving DecidableEq

/-- A Python assignment statement `t1 = t2 = ... = value`: a chained
assignment has every expression but the last as a target. -/
structure PyAssign where
  targets : List PyExpr
  value : PyExpr

/-- Line 7 of `src/llamaapi/__init__.py`:
`__email__ = "nikjois@llamasearch.ai" = "Nik Jois"`.
Parsed as a chained assignment, its targets are the name `__email__` and the
string literal `"nikjois@llamasearch.ai"`, and its value is `"Nik Jois"`. -/
def emailAssign : PyAssign :=
  { targets := [PyExpr.name "__email__", PyExpr.strLit "nikjois@llamasearch.ai"],
    value := PyExpr.strLit "Nik Jois" }

/-- Python accepts a bare name as an assignment target; a string literal as a
target is a `SyntaxError` (`cannot assign to literal`). -/
def isValidAssignTarget : PyExpr → Bool
  | PyExpr.name _ => true
  | PyExpr.strLit _ => false

/-- An assignment statement compiles only when every chained target is a valid
assignment target. -/
def assignWellFormed (a : PyAssign) : Bool :=
  a.targets.all isValidAssignTarget

/-- The modules that `src/llamaapi/__init__.py` imports from
(lines 10-48). -/
def llamaapiImportedModules : List String :=
  ["llamaapi.auth", "llamaapi.cache", "llamaapi.client", "llamaapi.exceptions",
   "llamaapi.middleware", "llamaapi.openapi", "llamaapi.server"]

/-- The importable modules actually present in the repository source tree:
only the package `llamaapi` itself (its `__init__.py`); none of its
submodules exist under `src/`. -/
def sourceTreeModules : List String :=
  ["llamaapi"]

/-- Outcome of attempting `import llamaapi`. -/
inductive ImportOutcome where
  | badAssignTarget
  | moduleNotFound (m : String)
  | ok
  deriving DecidableEq

/-- Python import semantics for the package: compiling the module body fails
first on the ill-formed chained assignment of line 7; were the body
syntactically valid, the `from llamaapi.<mod> import ...` statements would
each require the named module to exist in the source tree. -/
def importLlamaapi : ImportOutcome :=
  if assignWellFormed emailAssign then
    match llamaapiImportedModules.find? (fun m => !(sourceTreeModules.contains m)) with
    | some m => ImportOutcome.moduleNotFound m
    | none => ImportOutcome.ok
  else ImportOutcome.badAssignTarget

/-- The documented entry point `create_client` is reachable by a consumer only
when `import llamaapi` succeeds. -/
def createClientReachable : Bool :=
  importLlamaapi = ImportOutcome.ok

/-! ### Retry middleware (client side) -/

/-- Modelled from the spec: `RetryMiddleware` lives in `llamaapi.middleware`,
which is absent from the source tree.  Per the spec, retry re-attempts on
failure with the initial attempt followed by up to `retriesLeft` retries, and
is terminal after max attempts, surfacing the last error.  The transport is a
function from the 1-based attempt number to a result; the returned `Nat` is
the number of the attempt on which the loop stopped, i.e. the total number of
transport invocations. -/
def retryLoop {E A : Type} (transport : Nat → Except E A) (attempt : Nat)
    (retriesLeft : Nat) : Except E A × Nat :=
  match transport attempt, retriesLeft with
  | Except.ok a, _ => (Except.ok a, attempt)
  | Except.error e, 0 => (Except.error e, attempt)
  | Except.error _, r + 1 => retryLoop transport (attempt + 1) r

/-- Modelled from the spec: a client call through retry middleware configured
with `max_retries = maxRetries` performs the initial attempt (attempt 1) and
then at most `maxRetries` retries. -/
def retryCall {E A : Type} (maxRetries : Nat) (transport : Nat → Except E A) :
    Except E A × Nat :=
  retryLoop transport 1 maxRetries

/-- Concrete transport for the retry scenarios: fails on attempts 1 and 2 with
the attempt number as the error, succeeds with value 42 from attempt 3 on. -/
def retryDemoTransport (n : Nat) : Except Nat Nat :=
  if n < 3 then Except.error n else Except.ok 42

/-- Concrete transport that always fails, with the attempt number as error. -/
def retryFailTransport (n : Nat) : Except Nat Nat :=
  Except.error n

/-! ### Middleware chain ordering (onion composition) -/

/-- An observable side effect produced while one request flows through the
middleware chain: an outbound (pre-core) event or an inbound (post-core)
event of a named middleware, or the core operation itself. -/
inductive ChainEvent where
  | outbound (n : String)
  | inbound (n : String)
  | core
  deriving DecidableEq

/-- Modelled from the spec: the middleware classes live in
`llamaapi.middleware`, absent from the source tree.  A stateless middleware
named `n` wraps a handler: it records its outbound event, runs the inner
handler, then records its inbound event.  The event log is threaded
explicitly. -/
def wrapMW {Req Resp : Type} (n : String)
    (inner : Req → List ChainEvent → Resp × List ChainEvent) :
    Req → List ChainEvent → Resp × List ChainEvent :=
  fun req log =>
    let r := inner req (log ++ [ChainEvent.outbound n])
    (r.1, r.2 ++ [ChainEvent.inbound n])

/-- Modelled from the spec: chain composition is onion-style, the middleware
registered first wraps outermost; folding the wrappers over the core from the
right puts the head of the registration list outermost. -/
def composeChain {Req Resp : Type} (names : List String)
    (core : Req → List ChainEvent → Resp × List ChainEvent) :
    Req → List ChainEvent → Resp × List ChainEvent :=
  names.foldr wrapMW core

/-- The core transport operation at the centre of the chain: performs the
call and records the core event. -/
def coreHandler {Req Resp : Type} (transport : Req → Resp) :
    Req → List ChainEvent → Resp × List ChainEvent :=
  fun req log => (transport req, log ++ [ChainEvent.core])

/-! ### Cache contract -/

/-- A stored cache entry: the value together with its absolute expiry time,
if a TTL was given at `set` time. -/
structure CacheEntry (V : Type) where
  value : V
  expiresAt : Option Nat
  deriving DecidableEq

/-- Modelled from the spec: the cache backends (`MemoryCache`, `FileCache`,
`RedisCache`) live in `llamaapi.cache`, absent from the source tree; they are
interchangeable implementations of one get/set/delete/clear contract, modelled
here once as a key-to-entry association list. -/
abbrev CacheStore (V : Type) := List (String × CacheEntry V)

/-- Look up the raw entry stored under a key, newest binding first. -/
def cacheFind {V : Type} : CacheStore V → String → Option (CacheEntry V)
  | [], _ => none
  | (k2, e) :: rest, k => if k2 = k then some e else cacheFind rest k

/-- Modelled from the spec: `set(key, value, ttl=optional)` stores the value;
a TTL of `d` at time `now` makes the entry expire at absolute time
`now + d`. -/
def cacheSet {V : Type} (c : CacheStore V) (k : String) (v : V)
    (ttl : Option Nat) (now : Nat) : CacheStore V :=
  (k, { value := v, expiresAt := ttl.map (fun d => now + d) }) :: c

/-- Modelled from the spec: `get(key) -> value or absent`; TTL expiry is
lazy-checked-on-read, and an expired entry behaves identically to an absent
one.  The operation is a total function into `Option`: it never raises. -/
def cacheGet {V : Type} (c : CacheStore V) (k : String) (now : Nat) :
    Option V :=
  match cacheFind c k with
  | none => none
  | some e =>
    match e.expiresAt with
    | none => some e.value
    | some t => if now < t then some e.value else none

/-- Modelled from the spec: `delete(key)` removes every binding of the key. -/
def cacheDelete {V : Type} (c : CacheStore V) (k : String) : CacheStore V :=
  c.filter (fun p => p.1 ≠ k)

/-- Modelled from the spec: `clear()` empties the store. -/
def cacheClear {V : Type} (_ : CacheStore V) : CacheStore V :=
  []

/-! ### Client-side caching of GET calls -/

/-- A GET request as the cache-key derivation sees it: resolved path and query
parameters. -/
structure GetRequest where
  path : String
  params : List (String × String)
  deriving DecidableEq

/-- Insert one query parameter into a list sorted by parameter name. -/
def insertParamSorted (p : String × String) :
    List (String × String) → List (String × String)
  | [] => [p]
  | q :: rest =>
    if p.1 < q.1 then p :: q :: rest else q :: insertParamSorted p rest

/-- Sort query parameters by name, per the spec's cache-key normalization
(`method + normalized URL with sorted query parameters`). -/
def sortParams : List (String × String) → List (String × String)
  | [] => []
  | p :: rest => insertParamSorted p (sortParams rest)

/-- Render a query-parameter list into a key fragment. -/
def renderParams : List (String × String) → String
  | [] => ""
  | (k, v) :: rest => "&" ++ k ++ "=" ++ v ++ renderParams rest

/-- Modelled from the spec: the normalized cache key of a GET request is
derived deterministically from the method, the path and the sorted query
parameters. -/
def cacheKey (r : GetRequest) : String :=
  "GET " ++ r.path ++ "?" ++ renderParams (sortParams r.params)

/-- Modelled from the spec: `ApiClient` lives in `llamaapi.client`, absent
from the source tree.  A GET call with caching enabled checks the cache under
the normalized key and returns the cached value on a hit, bypassing the
transport entirely; on a miss it performs the transport call, counts it, and
populates the cache with the response.  State is the cache store paired with
the number of transport invocations so far. -/
def clientGet {V : Type} (transport : GetRequest → V)
    (st : CacheStore V × Nat) (r : GetRequest) (now : Nat) :
    V × CacheStore V × Nat :=
  match cacheGet st.1 (cacheKey r) now with
  | some v => (v, st.1, st.2)
  | none =>
    let resp := transport r
    (resp, cacheSet st.1 (cacheKey r) resp none now, st.2 + 1)

/-! ### Server data model and router -/

/-- HTTP methods, per the spec's `HttpMethod` enumeration. -/
inductive HttpMethod where
  | GET
  | POST
  | PUT
  | DELETE
  | PATCH
  | OPTIONS
  | HEAD
  deriving DecidableEq

/-- One segment of a route path pattern: a literal segment or a named
parameter segment. -/
inductive PatternSeg where
  | lit (s : String)
  | param (n : String)
  deriving DecidableEq

/-- An authenticated principal stored in the request context map, as in the
server example's auth middleware (`{"id": "admin", "role": "admin"}`). -/
structure Principal where
  id : String := ""
  role : String := ""
  deriving DecidableEq

/-- Modelled from the spec: the server `Request` of `llamaapi.server`, absent
from the source tree: method, path, headers, query parameters, path
parameters populated by the router, body, and the mutable per-request context
map set by middleware. -/
structure Request where
  method : HttpMethod
  path : String
  headers : List (String × String) := []
  query_params : List (String × String) := []
  path_params : List (String × String) := []
  body : String := ""
  context : List (String × Principal) := []
  deriving DecidableEq

/-- Modelled from the spec: the server `Response` of `llamaapi.server`:
status code, headers and body. -/
structure Response where
  status_code : Nat := 200
  headers : List (String × String) := []
  body : String := ""
  deriving DecidableEq

/-- Split a path string into its non-empty slash-separated segments.  The
accumulator holds the characters of the current segment in reverse. -/
def splitPathAux : List Char → List Char → List String
  | [], acc => if acc.isEmpty then [] else [String.mk acc.reverse]
  | c :: cs, acc =>
    if c = '/' then
      if acc.isEmpty then splitPathAux cs []
      else String.mk acc.reverse :: splitPathAux cs []
    else splitPathAux cs (c :: acc)

/-- The non-empty segments of a request path or pattern string. -/
def splitPath (p : String) : List String :=
  splitPathAux p.data []

/-- Parse one pattern segment: a segment enclosed in braces is a named
parameter segment; anything else is a literal segment. -/
def parseSeg (s : String) : PatternSeg :=
  match s.data with
  | [] => PatternSeg.lit s
  | c :: rest =>
    if c = Char.ofNat 123 && rest.getLast? == some (Char.ofNat 125) then
      PatternSeg.param (String.mk rest.dropLast)
    else PatternSeg.lit s

/-- Parse a route path pattern string such as the example's
`"/users/{user_id}"` into its segments. -/
def parsePattern (p : String) : List PatternSeg :=
  (splitPath p).map parseSeg

/-- Modelled from the spec: segment-by-segment pattern matching: a literal
segment must match exactly; a named parameter segment matches any single
non-empty path segment and captures it; lengths must agree. -/
def matchSegs : List PatternSeg → List String → Option (List (String × String))
  | [], [] => some []
  | PatternSeg.lit s :: ps, x :: xs =>
    if s = x then matchSegs ps xs else none
  | PatternSeg.param n :: ps, x :: xs =>
    if x ≠ "" then (matchSegs ps xs).map (fun l => (n, x) :: l) else none
  | _, _ => none

/-- A route-scoped or global middleware: receives the request and either
passes a possibly-modified request onward or short-circuits with a
response. -/
abbrev ServerMW := Request → Request ⊕ Response

/-- Modelled from the spec: a registered route: path pattern, allowed
methods, route-scoped middleware, handler. -/
structure Route where
  pattern : List PatternSeg
  methods : List HttpMethod
  middleware : List ServerMW := []
  handler : Request → Response

/-- A route matches a request when its pattern matches the path segments and
its method set contains the request method. -/
def routeMatches (r : Route) (m : HttpMethod) (segs : List String) : Bool :=
  (matchSegs r.pattern segs).isSome && r.methods.contains m

/-- Modelled from the spec: scan registered routes in registration order; the
first route whose pattern matches the path and whose method set contains the
request method wins, yielding the route and the captured path parameters.
A route whose pattern matches but whose methods do not is skipped. -/
def findRoute : List Route → HttpMethod → List String →
    Option (Route × List (String × String))
  | [], _, _ => none
  | r :: rest, m, segs =>
    match matchSegs r.pattern segs with
    | some ps =>
      if r.methods.contains m then some (r, ps) else findRoute rest m segs
    | none => findRoute rest m segs

/-- Whether any registered route's pattern matches the path, irrespective of
method: decides 405 versus 404 when no route matches outright. -/
def anyPathMatch (routes : List Route) (segs : List String) : Bool :=
  routes.any (fun r => (matchSegs r.pattern segs).isSome)

/-- Run a middleware chain over a request: each middleware may pass the
(possibly modified) request to the next, or short-circuit with a response,
skipping the rest of the chain. -/
def runChainMW : List ServerMW → Request → Request ⊕ Response
  | [], req => Sum.inl req
  | mw :: rest, req =>
    match mw req with
    | Sum.inl req2 => runChainMW rest req2
    | Sum.inr resp => Sum.inr resp

/-- Modelled from the spec: server dispatch: run the global middleware chain
(each may short-circuit with a response); then match the route; on a match,
populate the path parameters, run the route-scoped middleware chain, and
invoke the handler; with no match, respond 405 when some route's pattern
matches the path irrespective of method, else 404. -/
def handleRequest (global : List ServerMW) (routes : List Route)
    (req0 : Request) : Response :=
  match runChainMW global req0 with
  | Sum.inr resp => resp
  | Sum.inl req1 =>
    match findRoute routes req1.method (splitPath req1.path) with
    | some (r, ps) =>
      match runChainMW r.middleware { req1 with path_params := ps } with
      | Sum.inl req2 => r.handler req2
      | Sum.inr resp => resp
    | none =>
      if anyPathMatch routes (splitPath req1.path) then
        { status_code := 405 }
      else
        { status_code := 404 }

/-- Look up a key in an association list, first binding wins. -/
def assocFind {A : Type} : List (String × A) → String → Option A
  | [], _ => none
  | (k2, v) :: rest, k => if k2 = k then some v else assocFind rest k

/-- The spec's segment-by-segment matching relation, stated directly from the
specification text: a pattern matches a path when they align segment by
segment, literal segments matching exactly and each named parameter segment
matching any single non-empty segment and being captured in order. -/
inductive SegsMatch :
    List PatternSeg → List String → List (String × String) → Prop where
  | nil : SegsMatch [] [] []
  | lit (s : String) (ps : List PatternSeg) (xs : List String)
      (l : List (String × String)) :
      SegsMatch ps xs l → SegsMatch (PatternSeg.lit s :: ps) (s :: xs) l
  | param (n x : String) (ps : List PatternSeg) (xs : List String)
      (l : List (String × String)) :
      x ≠ "" → SegsMatch ps xs l →
      SegsMatch (PatternSeg.param n :: ps) (x :: xs) ((n, x) :: l)

/-! ### Authentication gate -/

/-- Modelled from the spec: `require_auth` from `llamaapi.server`, absent
from the source tree: a route-scoped middleware that inspects the context map
for a previously-established principal under the key `"user"` and
short-circuits with a 401 response when it is absent, passing the request
through unchanged otherwise. -/
def require_auth (req : Request) : Request ⊕ Response :=
  match assocFind req.context "user" with
  | none => Sum.inr { status_code := 401 }
  | some _ => Sum.inl req

/-- A route whose only route-scoped middleware is `require_auth`. -/
def guardedRoute (pat : List PatternSeg) (ms : List HttpMethod)
    (handler : Request → Response) : Route :=
  { pattern := pat, methods := ms, middleware := [require_auth],
    handler := handler }

/-- The server example's global auth middleware: when the `X-API-Key` header
equals `secret-api-key`, it establishes the admin principal in the context
map; otherwise it passes the request through unchanged. -/
def demoAuthMW (req : Request) : Request ⊕ Response :=
  if assocFind req.headers "X-API-Key" == some "secret-api-key" then
    Sum.inl { req with
      context := ("user", { id := "admin", role := "admin" }) :: req.context }
  else
    Sum.inl req

/-- Handler echoing the captured `user_id` path parameter in the body. -/
def demoDeleteHandler (req : Request) : Response :=
  { status_code := 200, body := (assocFind req.path_params "user_id").getD "" }

/-- A `DELETE /users/42` request carrying no credentials. -/
def demoReqNoAuth : Request :=
  { method := HttpMethod.DELETE, path := "/users/42" }

/-- A `DELETE /users/42` request carrying the demo API key header. -/
def demoReqAuth : Request :=
  { method := HttpMethod.DELETE, path := "/users/42",
    headers := [("X-API-Key", "secret-api-key")] }

/-- `demoReqAuth` after the global auth middleware established the admin
principal. -/
def demoReqAuthCtx : Request :=
  { demoReqAuth with context := [("user", { id := "admin", role := "admin" })] }

/-- The example's `GET /users/{user_id}` route, used to exercise the 404/405
distinction. -/
def demoUsersRoute : Route :=
  { pattern := parsePattern "/users/{user_id}", methods := [HttpMethod.GET],
    middleware := [], handler := demoDeleteHandler }

/-! ### Low-level client responses and the error taxonomy -/

/-- Modelled from the spec: the client `ApiResponse` of `llamaapi.client`:
status code and body. -/
structure ApiResponse where
  status_code : Nat
  body : String := ""
  deriving DecidableEq

/-- Modelled from the spec: the error taxonomy of `llamaapi.exceptions`,
absent from the source tree. -/
inductive ApiError where
  | authenticationError
  | authorizationError
  | validationError
  | resourceNotFoundError
  | rateLimitError
  | serverError
  | otherApiError (status : Nat)
  deriving DecidableEq

/-- Modelled from the spec: the mapping from a non-2xx status code to the
error taxonomy: 401 authentication, 403 authorization, 404 resource not
found, 400/422 validation, 429 rate limit, 5xx server error. -/
def errorForStatus (s : Nat) : ApiError :=
  if s = 401 then ApiError.authenticationError
  else if s = 403 then ApiError.authorizationError
  else if s = 404 then ApiError.resourceNotFoundError
  else if s = 400 ∨ s = 422 then ApiError.validationError
  else if s = 429 then ApiError.rateLimitError
  else if 500 ≤ s then ApiError.serverError
  else ApiError.otherApiError s

/-- Modelled from the spec: the explicit status-checking operation on a
response: on a 2xx status it returns the response unchanged; otherwise it
raises the taxonomy error for the status.  This is the only throwing path. -/
def raise_for_status (r : ApiResponse) : Except ApiError ApiResponse :=
  if 200 ≤ r.status_code ∧ r.status_code < 300 then Except.ok r
  else Except.error (errorForStatus r.status_code)

/-- Modelled from the spec: a low-level client call (`get`/`post`/`put`/
`delete`/`patch`) performs the transport call and returns its response as a
value, whatever the status code: the call itself never raises on non-2xx. -/
def clientCall (transport : HttpMethod → String → ApiResponse)
    (m : HttpMethod) (p : String) : ApiResponse :=
  transport m p

/-- A transport that answers every call with a 404 response. -/
def demo404Transport (_ : HttpMethod) (_ : String) : ApiResponse :=
  { status_code := 404 }

/-! ### The create_client helper of the package entry point -/

/-- Modelled from the spec: `ApiClient` of `llamaapi.client`, absent from the
source tree; kept abstract here, its constructor simply records the keyword
arguments it was called with. -/
structure ApiClient where
  base_url : String
  auth : Option String
  timeout : Nat
  retries : Nat
  middleware : Option (List String)
  cache : Option String
  kwargs : List (String × String)
  deriving DecidableEq

/-- Python default value of `create_client`'s `auth` parameter. -/
def create_client_default_auth : Option String := none

/-- Python default value of `create_client`'s `timeout` parameter. -/
def create_client_default_timeout : Nat := 30

/-- Python default value of `create_client`'s `retries` parameter. -/
def create_client_default_retries : Nat := 3

/-- Python default value of `create_client`'s `middleware` parameter. -/
def create_client_default_middleware : Option (List String) := none

/-- Python default value of `create_client`'s `cache` parameter. -/
def create_client_default_cache : Option String := none

/-- `create_client` from `src/llamaapi/__init__.py` lines 95-127: forwards
every keyword argument, `**kwargs` included, unchanged to `ApiClient` and
returns the resulting instance.  Its Python parameter defaults are the
`create_client_default_*` constants above. -/
def create_client (base_url : String) (auth : Option String) (timeout : Nat)
    (retries : Nat) (middleware : Option (List String)) (cache : Option String)
    (kwargs : List (String × String)) : ApiClient :=
  { base_url := base_url, auth := auth, timeout := timeout,
    retries := retries, middleware := middleware, cache := cache,
    kwargs := kwargs }

end LlamaApi

namespace LlamaApi

/-- C1: importing the package `llamaapi` fails for every consumer: the chained
assignment on line 7 of the package `__init__` has a string literal as its
middle target, which Python rejects at compile time; independently, every
module the `__init__`
imports from is absent from the source tree; hence `import llamaapi` fails
and no documented entry point, `create_client` included, is reachable. -/
theorem import_of_llamaapi_fails :
    importLlamaapi = ImportOutcome.badAssignTarget ∧
    assignWellFormed emailAssign = false ∧
    llamaapiImportedModules.all (fun m => !(sourceTreeModules.contains m)) = true ∧
    createClientReachable = false := by
  decide

/-- C2: through retry middleware with `max_retries = 3`: a transport failing
on attempts 1 and 2 and succeeding on attempt 3 yields the success response
with exactly 3 transport invocations; a transport failing on every attempt
yields the final error (the one of attempt 4) with exactly 4 transport
invocations (initial attempt plus 3 retries). -/
theorem retry_attempt_counts :
    (∀ (E A : Type) (transport : Nat → Except E A) (e1 e2 : E) (v : A),
      transport 1 = Except.error e1 → transport 2 = Except.error e2 →
      transport 3 = Except.ok v →
      retryCall 3 transport = (Except.ok v, 3)) ∧
    (∀ (E A : Type) (transport : Nat → Except E A) (err : Nat → E),
      (∀ n, transport n = Except.error (err n)) →
      retryCall 3 transport = (Except.error (err 4), 4)) := by
  constructor
  · intro E A transport e1 e2 v h1 h2 h3
    simp [retryCall, retryLoop, h1, h2, h3]
  · intro E A transport err herr
    simp [retryCall, retryLoop, herr 1, herr 2, herr 3, herr 4]

/-- Witness for C2 at the concrete transports: the fail-twice-then-succeed
transport stops with the success value at attempt 3, and the always-failing
transport stops with the error of attempt 4. -/
theorem retry_attempt_counts_witness :
    retryCall 3 retryDemoTransport = (Except.ok 42, 3) ∧
    retryCall 3 retryFailTransport = (Except.error 4, 4) := by
  constructor
  · exact retry_attempt_counts.1 Nat Nat retryDemoTransport 1 2 42 rfl rfl rfl
  · exact retry_attempt_counts.2 Nat Nat retryFailTransport (fun n => n)
      (fun n => rfl)

/-- C5: for every request through a chain of N stateless middleware composed
onion-style (first registered outermost) around the core transport, the event
log extends by the middleware outbound events in registration order, then the
core event, then the inbound events in reverse registration order; the
response is the transport's. -/
theorem middleware_onion_order {Req Resp : Type} (names : List String)
    (transport : Req → Resp) (req : Req) (log : List ChainEvent) :
    composeChain names (coreHandler transport) req log =
      (transport req,
        log ++ names.map ChainEvent.outbound ++ [ChainEvent.core] ++
          (names.reverse.map ChainEvent.inbound)) := by
  induction names generalizing log with
  | nil => simp [composeChain, coreHandler]
  | cons n rest ih =>
    simp only [composeChain, List.foldr_cons] at ih ⊢
    simp [wrapMW, ih, List.append_assoc]

/-- Deleting a key removes every binding of it from the store. -/
theorem cacheFind_delete_self {V : Type} (c : CacheStore V) (k : String) :
    cacheFind (cacheDelete c k) k = none := by
  induction c with
  | nil => rfl
  | cons q rest ih =>
    obtain ⟨k2, e⟩ := q
    simp only [cacheDelete, List.filter_cons, ne_eq, decide_not] at ih ⊢
    by_cases h : k2 = k
    · simp [h, ih]
    · simp [h, cacheFind, ih]

/-- A freshly set entry with no TTL is returned at every read time. -/
theorem cacheGet_set_no_ttl {V : Type} (c : CacheStore V) (k : String) (v : V)
    (now t : Nat) : cacheGet (cacheSet c k v none now) k t = some v := by
  simp [cacheGet, cacheSet, cacheFind]

/-- C6: the cache contract shared by all backends: after `set(k, v)` the
value is returned by `get(k)` while the TTL (if any) has not expired; once
the TTL has expired the entry behaves as absent; after `delete(k)` the key
is absent; and `get` on an absent key returns absent — `cacheGet` is a total
function into `Option`, so it never raises. -/
theorem cache_contract {V : Type} (c : CacheStore V) (k : String) (v : V) :
    (∀ (ttl : Option Nat) (now t : Nat), (∀ d, ttl = some d → t < now + d) →
        cacheGet (cacheSet c k v ttl now) k t = some v) ∧
    (∀ (d now t : Nat), now + d ≤ t →
        cacheGet (cacheSet c k v (some d) now) k t = none) ∧
    (∀ t : Nat, cacheGet (cacheDelete c k) k t = none) ∧
    (∀ t : Nat, cacheFind c k = none → cacheGet c k t = none) := by
  refine ⟨?_, ?_, ?_, ?_⟩
  · intro ttl now t hlive
    cases ttl with
    | none => simp [cacheGet, cacheSet, cacheFind]
    | some d => simp [cacheGet, cacheSet, cacheFind, hlive d rfl]
  · intro d now t hexp
    simp [cacheGet, cacheSet, cacheFind, Nat.not_lt.mpr hexp]
  · intro t
    simp [cacheGet, cacheFind_delete_self]
  · intro t habs
    simp [cacheGet, habs]

/-- Witness for C6 on a concrete store: a value set with TTL 10 at time 0 is
readable at time 5, absent at time 10, absent after delete, and a never-set
key is absent. -/
theorem cache_contract_witness :
    cacheGet (cacheSet ([] : CacheStore Nat) "users" 7 (some 10) 0) "users" 5 =
      some 7 ∧
    cacheGet (cacheSet ([] : CacheStore Nat) "users" 7 (some 10) 0) "users" 10 =
      none ∧
    cacheGet (cacheDelete (cacheSet ([] : CacheStore Nat) "users" 7 none 0)
      "users") "users" 3 = none ∧
    cacheGet ([] : CacheStore Nat) "users" 3 = none := by
  refine ⟨?_, ?_, ?_, ?_⟩
  · exact (cache_contract ([] : CacheStore Nat) "users" 7).1 (some 10) 0 5
      (by intro d hd; cases hd; decide)
  · exact (cache_contract ([] : CacheStore Nat) "users" 7).2.1 10 0 10
      (by decide)
  · exact (cache_contract (cacheSet ([] : CacheStore Nat) "users" 7 none 0)
      "users" 7).2.2.1 3
  · exact (cache_contract ([] : CacheStore Nat) "users" 7).2.2.2 3 rfl

/-- C7: with caching enabled, two sequential identical GET calls starting
from an empty cache invoke the transport exactly once: the first call
performs the transport call (count goes to 1) and populates the cache, the
second is served from the cache (count stays 1) and returns a response equal
to the first call's. -/
theorem client_get_cache_idempotent {V : Type} (transport : GetRequest → V)
    (r : GetRequest) (now1 now2 : Nat) :
    (clientGet transport (([] : CacheStore V), 0) r now1).2.2 = 1 ∧
    (clientGet transport
      (clientGet transport (([] : CacheStore V), 0) r now1).2 r now2).2.2 = 1 ∧
    (clientGet transport
      (clientGet transport (([] : CacheStore V), 0) r now1).2 r now2).1 =
      (clientGet transport (([] : CacheStore V), 0) r now1).1 := by
  have h1 : clientGet transport (([] : CacheStore V), 0) r now1 =
      (transport r, cacheSet [] (cacheKey r) (transport r) none now1, 1) := by
    simp [clientGet, cacheGet, cacheFind]
  have h2 : clientGet transport
      (cacheSet [] (cacheKey r) (transport r) none now1, 1) r now2 =
      (transport r, cacheSet [] (cacheKey r) (transport r) none now1, 1) := by
    simp [clientGet, cacheGet_set_no_ttl]
  rw [h1]
  exact ⟨rfl, by rw [h2], by rw [h2]⟩

/-- The executable matcher agrees with the spec's segment-by-segment matching
relation. -/
theorem matchSegs_segsMatch (ps : List PatternSeg) (xs : List String)
    (l : List (String × String)) :
    matchSegs ps xs = some l ↔ SegsMatch ps xs l := by
  constructor
  · induction ps generalizing xs l with
    | nil =>
      intro h
      cases xs with
      | nil =>
        simp only [matchSegs, Option.some.injEq] at h
        subst h
        exact SegsMatch.nil
      | cons x xs2 => exact Option.noConfusion h
    | cons p ps2 ih =>
      intro h
      cases p with
      | lit s =>
        cases xs with
        | nil => exact Option.noConfusion h
        | cons x xs2 =>
          by_cases hs : s = x
          · simp only [matchSegs, if_pos hs] at h
            subst hs
            exact SegsMatch.lit s ps2 xs2 l (ih xs2 l h)
          · simp [matchSegs, hs] at h
      | param n =>
        cases xs with
        | nil => exact Option.noConfusion h
        | cons x xs2 =>
          by_cases hx : x = ""
          · simp [matchSegs, hx] at h
          · simp only [matchSegs, ne_eq, hx, not_false_eq_true, if_true,
              if_pos, Option.map_eq_some'] at h
            obtain ⟨l2, h2, hl⟩ := h
            subst hl
            exact SegsMatch.param n x ps2 xs2 l2 hx (ih xs2 l2 h2)
  · intro h
    induction h with
    | nil => rfl
    | lit s ps2 xs2 l2 hm ih => simp [matchSegs, ih]
    | param n x ps2 xs2 l2 hx hm ih => simp [matchSegs, hx, ih]

/-- A route that does not match (by pattern or by method) is skipped by the
scan. -/
theorem findRoute_cons_skip {a : Route} {rest : List Route} {m : HttpMethod}
    {segs : List String} (h : routeMatches a m segs = false) :
    findRoute (a :: rest) m segs = findRoute rest m segs := by
  unfold routeMatches at h
  cases hma : matchSegs a.pattern segs with
  | none => simp [findRoute, hma]
  | some ps =>
    rw [hma] at h
    simp only [Option.isSome_some, Bool.true_and] at h
    have h2 : ¬ m ∈ a.methods := by simpa using h
    simp [findRoute, hma, h2]

/-- When every pattern-matching route lacks the request method, the scan
finds nothing. -/
theorem findRoute_eq_none {routes : List Route} {m : HttpMethod}
    {segs : List String}
    (h : ∀ r ∈ routes, ∀ ps, matchSegs r.pattern segs = some ps →
      r.methods.contains m = false) :
    findRoute routes m segs = none := by
  induction routes with
  | nil => rfl
  | cons a rest ih =>
    have hrest : findRoute rest m segs = none :=
      ih (fun r hr => h r (List.mem_cons_of_mem a hr))
    cases hma : matchSegs a.pattern segs with
    | none => simp [findRoute, hma, hrest]
    | some ps =>
      have h2 : ¬ m ∈ a.methods := by
        simpa using h a (List.mem_cons_self a rest) ps hma
      simp [findRoute, hma, h2, hrest]

/-- First-match-wins characterization of the route scan: the scan returns
exactly the first registered route matching by pattern and method, with the
parameters its pattern captures. -/
theorem findRoute_first_match (routes : List Route) (m : HttpMethod)
    (segs : List String) (r : Route) (l : List (String × String)) :
    findRoute routes m segs = some (r, l) ↔
      ∃ pre post, routes = pre ++ r :: post ∧
        (∀ r2 ∈ pre, routeMatches r2 m segs = false) ∧
        matchSegs r.pattern segs = some l ∧ r.methods.contains m = true := by
  induction routes with
  | nil =>
    constructor
    · intro h
      exact Option.noConfusion h
    · rintro ⟨pre, post, hroutes, -, -, -⟩
      exact absurd hroutes (List.append_ne_nil_of_right_ne_nil pre
        (List.cons_ne_nil r post)).symm
  | cons a rest ih =>
    by_cases hA : routeMatches a m segs = true
    · have hsome : (matchSegs a.pattern segs).isSome = true := by
        unfold routeMatches at hA
        exact (Bool.and_eq_true _ _).mp hA |>.1
      have hc : a.methods.contains m = true := by
        unfold routeMatches at hA
        exact (Bool.and_eq_true _ _).mp hA |>.2
      obtain ⟨psA, hpsA⟩ := Option.isSome_iff_exists.mp hsome
      constructor
      · intro h
        simp only [findRoute, hpsA, hc, if_true, Option.some.injEq,
          Prod.mk.injEq] at h
        obtain ⟨ha, hl⟩ := h
        subst ha
        subst hl
        exact ⟨[], rest, rfl, by simp, hpsA, hc⟩
      · rintro ⟨pre, post, hroutes, hpre, hm2, hc2⟩
        cases pre with
        | nil =>
          simp only [List.nil_append, List.cons.injEq] at hroutes
          obtain ⟨ha, hrest⟩ := hroutes
          subst ha
          simp only [findRoute, hpsA, hc, if_true]
          rw [hpsA] at hm2
          exact congrArg some (congrArg _ (Option.some.injEq _ _ ▸ hm2 ▸ rfl))
        | cons p pre2 =>
          simp only [List.cons_append, List.cons.injEq] at hroutes
          obtain ⟨ha, -⟩ := hroutes
          subst ha
          exact absurd hA (by simp [hpre a (List.mem_cons_self a pre2)])
    · have hAf : routeMatches a m segs = false := by
        simpa using hA
      rw [findRoute_cons_skip hAf, ih]
      constructor
      · rintro ⟨pre, post, hroutes, hpre, hm2, hc2⟩
        refine ⟨a :: pre, post, by rw [hroutes]; rfl, ?_, hm2, hc2⟩
        intro r2 hr2
        rcases List.mem_cons.mp hr2 with h2 | h2
        · subst h2
          exact hAf
        · exact hpre r2 h2
      · rintro ⟨pre, post, hroutes, hpre, hm2, hc2⟩
        cases pre with
        | nil =>
          simp only [List.nil_append, List.cons.injEq] at hroutes
          obtain ⟨ha, hrest⟩ := hroutes
          subst ha
          have hmem : m ∈ a.methods := by simpa using hc2
          exact absurd (by simp [routeMatches, hm2, hmem]) hA
        | cons p pre2 =>
          simp only [List.cons_append, List.cons.injEq] at hroutes
          obtain ⟨-, hrest⟩ := hroutes
          exact ⟨pre2, post, hrest,
            fun r2 hr2 => hpre r2 (List.mem_cons_of_mem p hr2), hm2, hc2⟩

/-- C3: for every dispatched (method, path) pair: when no registered route's
pattern matches the request path the response status is 404; when at least
one route's pattern matches the path but no pattern-matching route's method
set contains the request method, the response status is 405 — 405 is
preferred over 404 whenever some route's path matches irrespective of
method. -/
theorem router_status_codes (routes : List Route) (m : HttpMethod)
    (path : String) :
    ((∀ r ∈ routes, matchSegs r.pattern (splitPath path) = none) →
      (handleRequest [] routes { method := m, path := path }).status_code =
        404) ∧
    ((∃ r ∈ routes, (matchSegs r.pattern (splitPath path)).isSome = true) →
     (∀ r ∈ routes, ∀ ps, matchSegs r.pattern (splitPath path) = some ps →
        r.methods.contains m = false) →
      (handleRequest [] routes { method := m, path := path }).status_code =
        405) := by
  constructor
  · intro hnone
    have hfr : findRoute routes m (splitPath path) = none :=
      findRoute_eq_none (fun r hr ps hps => by
        rw [hnone r hr] at hps
        exact Option.noConfusion hps)
    have hap : anyPathMatch routes (splitPath path) = false := by
      simp only [anyPathMatch, List.any_eq_false]
      intro r hr
      simp [hnone r hr]
    simp [handleRequest, runChainMW, hfr, hap]
  · intro hsome hmeth
    have hfr : findRoute routes m (splitPath path) = none :=
      findRoute_eq_none hmeth
    have hap : anyPathMatch routes (splitPath path) = true := by
      obtain ⟨r, hr, hs⟩ := hsome
      exact List.any_eq_true.mpr ⟨r, hr, hs⟩
    simp [handleRequest, runChainMW, hfr, hap]

/-- Witness for C3 on the example route table holding only
`GET /users/{user_id}`: `GET /unknown` yields 404 and `POST /users/42`
yields 405. -/
theorem router_status_codes_witness :
    (handleRequest [] [demoUsersRoute]
      { method := HttpMethod.GET, path := "/unknown" }).status_code = 404 ∧
    (handleRequest [] [demoUsersRoute]
      { method := HttpMethod.POST, path := "/users/42" }).status_code = 405 := by
  constructor
  · exact (router_status_codes [demoUsersRoute] HttpMethod.GET "/unknown").1
      (by
        intro r hr
        rw [List.mem_singleton] at hr
        subst hr
        decide)
  · exact (router_status_codes [demoUsersRoute] HttpMethod.POST "/users/42").2
      (⟨demoUsersRoute, List.mem_singleton.mpr rfl, by decide⟩)
      (by
        intro r hr ps hps
        rw [List.mem_singleton] at hr
        subst hr
        decide)

/-- C4: route matching scans registered routes in registration order and the
first route matching by pattern and method wins; a pattern matches exactly
per the spec's segment-by-segment relation, literal segments matching
exactly and named parameter segments capturing any single non-empty segment;
in particular, registering `/users/{id}` and dispatching `GET /users/42`
invokes the handler on a request whose path parameters hold `id = "42"`. -/
theorem route_matching_spec :
    (∀ (ps : List PatternSeg) (xs : List String)
        (l : List (String × String)),
      matchSegs ps xs = some l ↔ SegsMatch ps xs l) ∧
    (∀ (routes : List Route) (m : HttpMethod) (segs : List String)
        (r : Route) (l : List (String × String)),
      findRoute routes m segs = some (r, l) ↔
        ∃ pre post, routes = pre ++ r :: post ∧
          (∀ r2 ∈ pre, routeMatches r2 m segs = false) ∧
          matchSegs r.pattern segs = some l ∧
          r.methods.contains m = true) ∧
    (∀ handler : Request → Response,
      handleRequest []
        [{ pattern := parsePattern "/users/{id}",
           methods := [HttpMethod.GET], middleware := [],
           handler := handler }]
        { method := HttpMethod.GET, path := "/users/42" } =
      handler { method := HttpMethod.GET, path := "/users/42",
                path_params := [("id", "42")] }) := by
  refine ⟨matchSegs_segsMatch, findRoute_first_match, ?_⟩
  intro handler
  have hm : matchSegs (parsePattern "/users/{id}") (splitPath "/users/42") =
      some [("id", "42")] := by decide
  simp [handleRequest, runChainMW, findRoute, hm]

/-- Witness for C4: dispatching `GET /users/42` against the registered
`/users/{id}` route hands the echo handler a request carrying path parameter
`id = "42"`, which it returns in the body. -/
theorem route_matching_spec_witness :
    handleRequest []
      [{ pattern := parsePattern "/users/{id}",
         methods := [HttpMethod.GET], middleware := [],
         handler := fun req =>
           { status_code := 200,
             body := (assocFind req.path_params "id").getD "" } }]
      { method := HttpMethod.GET, path := "/users/42" } =
    { status_code := 200, body := "42" } := by
  rw [route_matching_spec.2.2 (fun req =>
    { status_code := 200, body := (assocFind req.path_params "id").getD "" })]
  decide

/-- C8: every low-level client call returns the transport's `ApiResponse` as
a plain value, whatever the status code; the taxonomy exception appears only
through the explicit status-checking operation, which returns the response
unchanged on a 2xx status and the taxonomy error for the status otherwise —
so the non-throwing and the throwing path coexist for every call. -/
theorem low_level_call_returns_response
    (transport : HttpMethod → String → ApiResponse) (m : HttpMethod)
    (p : String) :
    clientCall transport m p = transport m p ∧
    (∀ resp : ApiResponse, 200 ≤ resp.status_code → resp.status_code < 300 →
      raise_for_status resp = Except.ok resp) ∧
    (∀ resp : ApiResponse,
      ¬(200 ≤ resp.status_code ∧ resp.status_code < 300) →
      raise_for_status resp = Except.error (errorForStatus resp.status_code)) := by
  refine ⟨rfl, ?_, ?_⟩
  · intro resp h1 h2
    simp [raise_for_status, h1, h2]
  · intro resp h
    simp [raise_for_status, h]

/-- Witness for C8: the low-level call against an always-404 transport
returns the 404 response as a value; checking it raises the resource-not-
found taxonomy error; checking a 200 response returns it unchanged. -/
theorem low_level_call_returns_response_witness :
    clientCall demo404Transport HttpMethod.GET "nonexistent-resource" =
      { status_code := 404, body := "" } ∧
    raise_for_status { status_code := 404, body := "" } =
      Except.error ApiError.resourceNotFoundError ∧
    raise_for_status { status_code := 200, body := "" } =
      Except.ok { status_code := 200, body := "" } := by
  refine ⟨?_, ?_, ?_⟩
  · exact (low_level_call_returns_response demo404Transport HttpMethod.GET
      "nonexistent-resource").1
  · exact (low_level_call_returns_response demo404Transport HttpMethod.GET
      "nonexistent-resource").2.2 { status_code := 404, body := "" }
      (by decide)
  · exact (low_level_call_returns_response demo404Transport HttpMethod.GET
      "nonexistent-resource").2.1 { status_code := 200, body := "" }
      (by decide) (by decide)

/-- C9: on a route guarded by `require_auth`, a request whose context map
(after the global middleware chain) holds no principal is short-circuited
with a 401 response — the handler is never consulted, the result being the
same for every handler — while a request whose context map was set by a
preceding middleware to hold a principal passes through to the handler with
the captured path parameters. -/
theorem require_auth_gate (global : List ServerMW) (req0 req : Request)
    (pat : List PatternSeg) (ms : List HttpMethod)
    (handler : Request → Response) (ps : List (String × String))
    (hg : runChainMW global req0 = Sum.inl req)
    (hseg : matchSegs pat (splitPath req.path) = some ps)
    (hm : ms.contains req.method = true) :
    (assocFind req.context "user" = none →
      handleRequest global [guardedRoute pat ms handler] req0 =
        { status_code := 401 }) ∧
    (∀ pr : Principal, assocFind req.context "user" = some pr →
      handleRequest global [guardedRoute pat ms handler] req0 =
        handler { req with path_params := ps }) := by
  have hmem : req.method ∈ ms := by simpa using hm
  constructor
  · intro hctx
    simp [handleRequest, hg, findRoute, guardedRoute, hseg, hmem, runChainMW,
      require_auth, hctx]
  · intro pr hctx
    simp [handleRequest, hg, findRoute, guardedRoute, hseg, hmem, runChainMW,
      require_auth, hctx]

/-- Witness for C9 on the example setup (global auth middleware keyed on the
`X-API-Key` header, `DELETE /users/{user_id}` guarded by `require_auth`): the
request without credentials gets 401; the request whose header makes the
global middleware establish the admin principal reaches the handler, which
sees path parameter `user_id = "42"`. -/
theorem require_auth_gate_witness :
    handleRequest [demoAuthMW]
      [guardedRoute (parsePattern "/users/{user_id}") [HttpMethod.DELETE]
        demoDeleteHandler] demoReqNoAuth = { status_code := 401 } ∧
    handleRequest [demoAuthMW]
      [guardedRoute (parsePattern "/users/{user_id}") [HttpMethod.DELETE]
        demoDeleteHandler] demoReqAuth =
      { status_code := 200, body := "42" } := by
  constructor
  · exact (require_auth_gate [demoAuthMW] demoReqNoAuth demoReqNoAuth
      (parsePattern "/users/{user_id}") [HttpMethod.DELETE] demoDeleteHandler
      [("user_id", "42")] (by decide) (by decide) (by decide)).1 (by decide)
  · have h := (require_auth_gate [demoAuthMW] demoReqAuth demoReqAuthCtx
      (parsePattern "/users/{user_id}") [HttpMethod.DELETE] demoDeleteHandler
      [("user_id", "42")] (by decide) (by decide) (by decide)).2
      { id := "admin", role := "admin" } (by decide)
    exact h.trans (by decide)

/-- C10: `create_client` returns exactly the value of `ApiClient` called
with the same keyword arguments unchanged, for every argument combination,
and its parameter defaults are `auth=None`, `timeout=30`, `retries=3`,
`middleware=None`, `cache=None`. -/
theorem create_client_passthrough (base_url : String) (auth : Option String)
    (timeout : Nat) (retries : Nat) (middleware : Option (List String))
    (cache : Option String) (kwargs : List (String × String)) :
    create_client base_url auth timeout retries middleware cache kwargs =
      ApiClient.mk base_url auth timeout retries middleware cache kwargs ∧
    create_client_default_auth = none ∧
    create_client_default_timeout = 30 ∧
    create_client_default_retries = 3 ∧
    create_client_default_middleware = none ∧
    create_client_default_cache = none :=
  ⟨rfl, rfl, rfl, rfl, rfl, rfl⟩

end LlamaApi
